import Mathlib

/-!
# Verification of the lineOfLife controller specification

A shallow embedding of the lineOfLife POV-display controller
(`src/controller/controller.h`) together with proofs about the protocol
engine, display buffer, register bank and stepper sequencer described in
its specification.  The header file fixes the constants, the command
opcodes, the register map and the stepper phase table; the behavioural
components (protocol dispatch, ring buffer, stepper tick) are documented
there but implemented elsewhere, so they are modelled from the
specification wherever noted.
-/

namespace LineOfLife

/-! ## Controller parameters (`controller.h`, lines 10-58) -/

/-- The C macro `VERTICAL_PIXELS`, defined as `120ul`. -/
def VERTICAL_PIXELS : Nat := 120

/-- The C macro `HORIZONTAL_PIXELS`, defined as `200ul`. -/
def HORIZONTAL_PIXELS : Nat := 200

/-- The C macro `ROTATION_STEPS`, defined as `4096ul`. -/
def ROTATION_STEPS : Nat := 4096

/-- The C macro `PIXEL_FRACTION`, defined as `8`. -/
def PIXEL_FRACTION : Nat := 8

/-- The C macro `DISPLAY_BUFFER_LENGTH`, defined as `8`. -/
def DISPLAY_BUFFER_LENGTH : Nat := 8

/-- The C macro `PROTOCOL_VERSION`, defined as `0x1`. -/
def PROTOCOL_VERSION : Nat := 0x1

/-- The C macro `NUM_VERTICAL_BYTES`, defined as `VERTICAL_PIXELS/8`. -/
def NUM_VERTICAL_BYTES : Nat := VERTICAL_PIXELS / 8

/-- The C macro `STEP_MICROSECONDS`, defined as
`((unsigned long)(60000000.0f / DISPLAY_RPM)) / ROTATION_STEPS`.
With `DISPLAY_RPM` equal to `1.0f`, the float quotient `60000000.0f / 1.0f`
is exactly `60000000.0f` (division by one is exact, and `60000000 = 937500 * 2^6`
fits a 24-bit float mantissa exactly), so the cast to `unsigned long`
yields exactly `60000000`; the remaining division is the integer division
below. -/
def STEP_MICROSECONDS : Nat := 60000000 / ROTATION_STEPS

/-- The C macro `STEPS_PER_PIXEL_FRACTION(n)`, defined as
`((n)*ROTATION_STEPS) / (HORIZONTAL_PIXELS*PIXEL_FRACTION)`
using C unsigned integer division, which truncates. -/
def STEPS_PER_PIXEL_FRACTION (n : Nat) : Nat :=
  (n * ROTATION_STEPS) / (HORIZONTAL_PIXELS * PIXEL_FRACTION)

/-! ## Stepper phase table (`controller.h`, lines 192-207) -/

/-- Arduino `HIGH` pin level. -/
def HIGH : Bool := true

/-- Arduino `LOW` pin level. -/
def LOW : Bool := false

/-- The C macro `MOTOR_STATE(p0,p1,p2,p3)`, defined as
`(p0!=LOW)<<0 | (p1!=LOW)<<1 | (p2!=LOW)<<2 | (p3!=LOW)<<3`. -/
def MOTOR_STATE (p0 p1 p2 p3 : Bool) : Nat :=
  ((if p0 ≠ LOW then 1 else 0) <<< 0) |||
  ((if p1 ≠ LOW then 1 else 0) <<< 1) |||
  ((if p2 ≠ LOW then 1 else 0) <<< 2) |||
  ((if p3 ≠ LOW then 1 else 0) <<< 3)

/-- The C table `const static unsigned char MOTOR_STATES[]`: the eight half-step coil
patterns which induce counter-clockwise motion when traversed forward. -/
def MOTOR_STATES : List Nat :=
  [ MOTOR_STATE HIGH  LOW  LOW  LOW
  , MOTOR_STATE HIGH HIGH  LOW  LOW
  , MOTOR_STATE  LOW HIGH  LOW  LOW
  , MOTOR_STATE  LOW HIGH HIGH  LOW
  , MOTOR_STATE  LOW  LOW HIGH  LOW
  , MOTOR_STATE  LOW  LOW HIGH HIGH
  , MOTOR_STATE  LOW  LOW  LOW HIGH
  , MOTOR_STATE HIGH  LOW  LOW HIGH
  ]

/-- The C macro `NUM_MOTOR_STATES`, the length of `MOTOR_STATES`. -/
def NUM_MOTOR_STATES : Nat := MOTOR_STATES.length

/-- Number of the four coil pins energized by a motor state. -/
def energizedPins (s : Nat) : Nat :=
  (List.range 4).countP (fun i => s.testBit i)

/-- Number of the four coil pins on which two motor states differ. -/
def pinDifference (s t : Nat) : Nat :=
  (List.range 4).countP (fun i => s.testBit i != t.testBit i)

/-! ## Display buffer

Modelled from the spec: the display buffer implementation is not under
`src/` (only `controller.h`'s constants and command documentation are);
the spec describes it as a bounded ring buffer of up to
`DISPLAY_BUFFER_LENGTH` pixel columns with FIFO order, `push` failing
without mutation when full, `pop` removing the oldest column, and `clear`
discarding all buffered columns. -/

/-- One pixel column: its `NUM_VERTICAL_BYTES` payload bytes, big-endian. -/
abbrev Column := List Nat

/-- Modelled from the spec: the bounded ring buffer of pixel columns.
`data` holds the slots (read and written at indices reduced mod
`DISPLAY_BUFFER_LENGTH`), `head` is the slot of the oldest column and
`count` the occupancy. -/
structure RingBuffer where
  data : Nat → Column
  head : Nat
  count : Nat

/-- Modelled from the spec: the empty display buffer. -/
def rbEmpty : RingBuffer :=
  { data := fun _ => List.replicate NUM_VERTICAL_BYTES 0, head := 0, count := 0 }

/-- Modelled from the spec: `push(column) -> bool` fails (returns `none`,
no mutation) when full, otherwise appends the column at the tail slot. -/
def rbPush (b : RingBuffer) (c : Column) : Option RingBuffer :=
  if b.count < DISPLAY_BUFFER_LENGTH then
    some { b with
           data := Function.update b.data ((b.head + b.count) % DISPLAY_BUFFER_LENGTH) c
           count := b.count + 1 }
  else
    none

/-- Modelled from the spec: `pop() -> column|empty` removes and returns the
oldest column. -/
def rbPop (b : RingBuffer) : Option (Column × RingBuffer) :=
  if b.count = 0 then
    none
  else
    some (b.data (b.head % DISPLAY_BUFFER_LENGTH),
          { b with head := (b.head + 1) % DISPLAY_BUFFER_LENGTH, count := b.count - 1 })

/-- Modelled from the spec: `clear()` discards all buffered columns. -/
def rbClear (b : RingBuffer) : RingBuffer :=
  { b with count := 0 }

/-- The buffered columns in FIFO order, oldest first. -/
def rbToList (b : RingBuffer) : List Column :=
  (List.range b.count).map (fun i => b.data ((b.head + i) % DISPLAY_BUFFER_LENGTH))

/-- Modelled from the spec: a sequence of `PUSH_LINE` enqueues issued
back-to-back with no interleaved scan-out pops; each successful push yields
the response byte `capacity - occupancy_after_push`, and a push against a
full buffer blocks, so the whole sequence fails to complete (`none`). -/
def bufPushSeq (b : RingBuffer) : List Column → Option (RingBuffer × List Nat)
  | [] => some (b, [])
  | c :: cs =>
    match rbPush b c with
    | none => none
    | some b' =>
      match bufPushSeq b' cs with
      | none => none
      | some (b'', rs) => some (b'', (DISPLAY_BUFFER_LENGTH - b'.count) :: rs)

/-- Pop `n` columns off the buffer in order (stopping early if it empties). -/
def rbPopList : Nat → RingBuffer → List Column × RingBuffer
  | 0, b => ([], b)
  | n + 1, b =>
    match rbPop b with
    | none => ([], b)
    | some (c, b') =>
      let p := rbPopList n b'
      (c :: p.1, p.2)

/-! ## Register bank and protocol engine

Modelled from the spec: the protocol dispatch loop is not under `src/`;
`controller.h` documents each opcode's immediate, payload and response and
each register's read/write rule, and the spec fixes the behaviour
(read-only writes are silent no-ops, out-of-range writes clamp, unknown
opcodes are ignored like NO_OP, `PUSH_LINE`/`FLUSH_BUFFER` suspend). -/

/-- Modelled from the spec: the mutable controller state shared by the
protocol engine: the display buffer and the two writable registers
(pixel aspect ratio and pixel duty, both unsigned 8.8 fixed point). -/
structure SysState where
  buf : RingBuffer
  pixelAspect : Nat
  pixelDuty : Nat

/-- Modelled from the spec: `REG_RPM`'s fixed read-only value: the display
spins at `DISPLAY_RPM = 1.0` RPM counter-clockwise (`STEPPER_CLOCKWISE`
is `false`), reported as a signed 8.8 fixed-point number where positive is
clockwise, so `-1.0` RPM in 16-bit two's complement. -/
def REG_RPM_VALUE : Nat := 0xFF00

/-- Modelled from the spec: `read(index) -> u16` over the register map of
`controller.h` (`reg_t`): 0 display height, 1 display width, 2 RPM,
3 pixel aspect ratio, 4 pixel duty, 5 buffer capacity/occupancy;
undefined indices read as an implementation-defined value, here 0. -/
def regRead (st : SysState) (idx : Nat) : Nat :=
  match idx with
  | 0 => VERTICAL_PIXELS
  | 1 => HORIZONTAL_PIXELS
  | 2 => REG_RPM_VALUE
  | 3 => st.pixelAspect
  | 4 => st.pixelDuty
  | 5 => DISPLAY_BUFFER_LENGTH * 256 + st.buf.count
  | _ => 0

/-- Modelled from the spec: `write(index, u16)`.  Registers 0, 1, 2 and 5
are read-only and undefined indices are reserved: writing them is a silent
no-op.  Register 3 keeps 16 bits; register 4 (pixel duty, in 1/256ths) is
clamped to its documented maximum of `1.0`, i.e. `256`. -/
def regWrite (st : SysState) (idx v : Nat) : SysState :=
  match idx with
  | 3 => { st with pixelAspect := v % 65536 }
  | 4 => { st with pixelDuty := min (v % 65536) 256 }
  | _ => st

/-- Outcome of feeding the protocol engine one command from the head of the
input stream: either the command completes, leaving the new state, its
response bytes and the unconsumed remainder of the stream, or it suspends
(`PUSH_LINE` against a full buffer, `FLUSH_BUFFER` against a non-empty one,
or a payload not yet fully received) awaiting scan-out or further input. -/
inductive StepResult where
  | done (st : SysState) (resp : List Nat) (rest : List Nat)
  | blocked

/-- Split `n` payload bytes off the input stream, if enough have arrived. -/
def takePayload (n : Nat) (xs : List Nat) : Option (List Nat × List Nat) :=
  if n ≤ xs.length then some (xs.take n, xs.drop n) else none

/-- Modelled from the spec: process one command byte (top nibble opcode,
`CMD_OPCODE_MASK 0xF0`; bottom nibble immediate, `CMD_IMMEDIATE_MASK 0x0F`)
and its payload from the input stream, per the `opcode_t` documentation of
`controller.h`:
`NO_OP` does nothing; `PUSH_LINE` consumes `NUM_VERTICAL_BYTES` payload
bytes, suspends until the buffer has a free slot, enqueues and answers
with the number of free slots left; `FLUSH_BUFFER` suspends until the
buffer is empty, then answers one (undefined, here 0) byte;
`CLEAR_BUFFER` empties the buffer; `REG_READ` answers the register's value
big-endian; `REG_WRITE` consumes a 2-byte big-endian payload and writes the
register; `PING` answers `(PROTOCOL_VERSION << 4) | immediate`; any other
opcode is treated as `NO_OP`: ignored, no response. -/
def stepCommand (st : SysState) : List Nat → StepResult
  | [] => .blocked
  | b :: rest =>
    let opcode := b &&& 0xF0
    let imm := b &&& 0x0F
    if opcode = 0x00 then .done st [] rest
    else if opcode = 0x10 then
      match takePayload NUM_VERTICAL_BYTES rest with
      | none => .blocked
      | some (col, rest') =>
        match rbPush st.buf col with
        | none => .blocked
        | some buf' => .done { st with buf := buf' } [DISPLAY_BUFFER_LENGTH - buf'.count] rest'
    else if opcode = 0x20 then
      if st.buf.count = 0 then .done st [0] rest else .blocked
    else if opcode = 0x30 then .done { st with buf := rbClear st.buf } [] rest
    else if opcode = 0x40 then .done st [regRead st imm / 256, regRead st imm % 256] rest
    else if opcode = 0x50 then
      match rest with
      | hi :: lo :: rest' => .done (regWrite st imm (hi * 256 + lo)) [] rest'
      | _ => .blocked
    else if opcode = 0xF0 then .done st [(PROTOCOL_VERSION <<< 4) ||| imm] rest
    else .done st [] rest

/-- Modelled from the spec: a fresh controller state: empty buffer, pixel
aspect ratio and duty at `1.0` (`256` in 8.8 fixed point). -/
def initState : SysState :=
  { buf := rbEmpty, pixelAspect := 256, pixelDuty := 256 }

/-! ## Stepper sequencer

Modelled from the spec: the timer routine is not under `src/`; the spec
says each tick advances the phase index by +1 or -1 (mod 8) according to
the configured rotation direction (the `MOTOR_STATES` table is ordered for
counter-clockwise motion, so clockwise steps backwards, i.e. +7 mod 8) and
increments the cumulative step count mod `ROTATION_STEPS`. -/

/-- The stepper sequencer state: current phase index into `MOTOR_STATES`
and cumulative step count within the current rotation. -/
structure StepperState where
  phase : Nat
  steps : Nat
  deriving DecidableEq

/-- Modelled from the spec: one stepper timer tick. -/
def stepperTick (cw : Bool) (s : StepperState) : StepperState :=
  { phase := if cw then (s.phase + 7) % 8 else (s.phase + 1) % 8
    steps := (s.steps + 1) % ROTATION_STEPS }

/-- The phase increment per tick: +1 counter-clockwise, -1 (= +7 mod 8)
clockwise. -/
def phaseDelta (cw : Bool) : Nat := if cw then 7 else 1

/-! ## Ring buffer lemmas -/

theorem rbPush_toList (b : RingBuffer) (c : Column) (hc : b.count < DISPLAY_BUFFER_LENGTH) :
    ∃ b', rbPush b c = some b' ∧ b'.count = b.count + 1 ∧ b'.head = b.head ∧
      rbToList b' = rbToList b ++ [c] := by
  refine ⟨{ b with
            data := Function.update b.data ((b.head + b.count) % DISPLAY_BUFFER_LENGTH) c
            count := b.count + 1 }, by simp [rbPush, hc], rfl, rfl, ?_⟩
  unfold rbToList
  simp only [List.range_succ, List.map_append, List.map_cons, List.map_nil]
  have hlen : DISPLAY_BUFFER_LENGTH = 8 := rfl
  congr 1
  · refine List.map_congr_left (fun i hi => ?_)
    have hi' : i < b.count := List.mem_range.mp hi
    refine Function.update_noteq (fun hcontra => ?_) _ _
    rw [hlen] at hcontra
    omega
  · simp [Function.update_same]

theorem rbPop_toList (b : RingBuffer) (h : b.count ≠ 0) :
    ∃ b', rbPop b = some (b.data (b.head % DISPLAY_BUFFER_LENGTH), b') ∧
      b'.count = b.count - 1 ∧
      rbToList b = b.data (b.head % DISPLAY_BUFFER_LENGTH) :: rbToList b' := by
  refine ⟨{ b with head := (b.head + 1) % DISPLAY_BUFFER_LENGTH, count := b.count - 1 },
          by simp [rbPop, h], rfl, ?_⟩
  obtain ⟨n, hn⟩ : ∃ n, b.count = n + 1 := ⟨b.count - 1, by omega⟩
  unfold rbToList
  simp only [hn, Nat.add_sub_cancel]
  rw [List.range_succ_eq_map]
  simp only [List.map_cons, List.map_map, Nat.add_zero]
  refine congrArg₂ List.cons rfl ?_
  refine List.map_congr_left (fun i _ => ?_)
  simp only [Function.comp_apply, Nat.mod_add_mod]
  exact congrArg b.data (congrArg (fun x => x % DISPLAY_BUFFER_LENGTH) (by omega))

theorem bufPushSeq_spec : ∀ (cols : List Column) (b : RingBuffer),
    b.count + cols.length ≤ DISPLAY_BUFFER_LENGTH →
    ∃ b' rs, bufPushSeq b cols = some (b', rs) ∧
      b'.count = b.count + cols.length ∧
      rbToList b' = rbToList b ++ cols ∧
      rs = (List.range cols.length).map
             (fun i => DISPLAY_BUFFER_LENGTH - (b.count + i + 1))
  | [], b => by
    intro _
    exact ⟨b, [], rfl, by simp, by simp, by simp⟩
  | c :: cs, b => by
    intro hle
    simp only [List.length_cons] at hle
    obtain ⟨b1, hpush, hcount1, -, hlist1⟩ :=
      rbPush_toList b c (by omega)
    obtain ⟨b2, rs2, hseq, hcount2, hlist2, hrs2⟩ :=
      bufPushSeq_spec cs b1 (by omega)
    refine ⟨b2, (DISPLAY_BUFFER_LENGTH - b1.count) :: rs2, ?_, ?_, ?_, ?_⟩
    · simp [bufPushSeq, hpush, hseq]
    · simp only [List.length_cons]; omega
    · rw [hlist2, hlist1, List.append_assoc, List.singleton_append]
    · rw [hrs2, hcount1]
      simp only [List.length_cons, List.range_succ_eq_map, List.map_cons, List.map_map]
      refine congrArg₂ List.cons (by omega) ?_
      refine List.map_congr_left (fun i _ => ?_)
      simp only [Function.comp_apply]
      omega

theorem rbPopList_toList : ∀ (n : Nat) (b : RingBuffer), b.count = n →
    (rbPopList n b).1 = rbToList b
  | 0, b => by
    intro h
    simp [rbPopList, rbToList, h]
  | n + 1, b => by
    intro h
    obtain ⟨b', hpop, hcount, hlist⟩ := rbPop_toList b (by omega)
    have ih := rbPopList_toList n b' (by omega)
    simp only [rbPopList, hpop, hlist, ih]

/-! ## Stepper sequencer lemmas -/

theorem stepperTick_phase (cw : Bool) (s : StepperState) :
    (stepperTick cw s).phase = (s.phase + phaseDelta cw) % 8 := by
  cases cw <;> simp [stepperTick, phaseDelta]

theorem stepperTick_iterate_phase (cw : Bool) (p st : Nat) (hp : p < 8) :
    ∀ k, ((stepperTick cw)^[k] ⟨p, st⟩).phase = (p + k * phaseDelta cw) % 8
  | 0 => by simp [Nat.mod_eq_of_lt hp]
  | k + 1 => by
    rw [Function.iterate_succ_apply', stepperTick_phase,
        stepperTick_iterate_phase cw p st hp k, Nat.mod_add_mod]
    congr 1
    ring

theorem stepperTick_iterate_steps (cw : Bool) (p : Nat) :
    ∀ k, ((stepperTick cw)^[k] ⟨p, 0⟩).steps = k % ROTATION_STEPS
  | 0 => by simp
  | k + 1 => by
    rw [Function.iterate_succ_apply']
    show ((((stepperTick cw)^[k] ⟨p, 0⟩).steps + 1) % ROTATION_STEPS) = _
    rw [stepperTick_iterate_steps cw p k, Nat.mod_add_mod]

theorem countP_phase_one_period (a r d : Nat) (ha : a < 8) (hr : r < 8)
    (hd : d = 1 ∨ d = 7) :
    (List.range 8).countP (fun k => (a + k * d) % 8 == r) = 1 := by
  rcases hd with rfl | rfl <;> interval_cases a <;> interval_cases r <;> decide

theorem countP_phase_blocks (d : Nat) (hd : d = 1 ∨ d = 7) :
    ∀ (N a r : Nat), a < 8 → r < 8 →
      (List.range (8 * N)).countP (fun k => (a + k * d) % 8 == r) = N
  | 0, a, r => by intro _ _; simp
  | N + 1, a, r => by
    intro ha hr
    rw [show 8 * (N + 1) = 8 * N + 8 from by ring, List.range_add,
        List.countP_append, countP_phase_blocks d hd N a r ha hr, List.countP_map]
    have hfun : ((fun k => (a + k * d) % 8 == r) ∘ (fun i => 8 * N + i))
        = (fun i => (a + i * d) % 8 == r) := by
      funext i
      simp only [Function.comp_apply]
      congr 1
      rw [show a + (8 * N + i) * d = a + i * d + N * d * 8 from by ring,
          Nat.add_mul_mod_self_right]
    rw [hfun, countP_phase_one_period a r d ha hr hd]

/-! ## Claims C4, C5, C10 -/

/-- C4 (counterexample): with the defined constants,
`HORIZONTAL_PIXELS * PIXEL_FRACTION * STEPS_PER_PIXEL_FRACTION(1)` is
`200 * 8 * 2 = 3200`, which is not `ROTATION_STEPS = 4096`: the claimed
exact tiling of a rotation by the columns' sub-tick structure fails. -/
theorem subtick_tiling_not_exact :
    HORIZONTAL_PIXELS * PIXEL_FRACTION * STEPS_PER_PIXEL_FRACTION 1 ≠ ROTATION_STEPS := by
  decide

/-- C4 (amended): the macro's integer division truncates `4096 / 1600` to `2`,
so the `HORIZONTAL_PIXELS` columns of `PIXEL_FRACTION` sub-ticks of
`STEPS_PER_PIXEL_FRACTION(1)` steps account for only `3200` of the
`ROTATION_STEPS = 4096` steps of one rotation. -/
theorem subtick_tiling_truncated :
    STEPS_PER_PIXEL_FRACTION 1 = 2 ∧
    HORIZONTAL_PIXELS * PIXEL_FRACTION * STEPS_PER_PIXEL_FRACTION 1 = 3200 ∧
    HORIZONTAL_PIXELS * PIXEL_FRACTION * STEPS_PER_PIXEL_FRACTION 1 < ROTATION_STEPS := by
  refine ⟨by decide, by decide, by decide⟩

/-- C5: the stepper tick period macro evaluates to `14648` microseconds, the
integer value of the specification formula `60000000 / (DISPLAY_RPM * ROTATION_STEPS)`
with `DISPLAY_RPM = 1.0`. -/
theorem step_microseconds_value :
    STEP_MICROSECONDS = 14648 ∧ STEP_MICROSECONDS = 60000000 / (1 * ROTATION_STEPS) := by
  refine ⟨by decide, by decide⟩

/-- C10: the `MOTOR_STATES` table has exactly 8 entries, each entry energizes
exactly one or two of the four coils, and every cyclically adjacent pair of
entries (including the wrap from the last back to the first) differs in
exactly one pin. -/
theorem motor_states_half_step_invariants :
    MOTOR_STATES.length = 8 ∧
    (∀ s ∈ MOTOR_STATES, energizedPins s = 1 ∨ energizedPins s = 2) ∧
    (∀ i < 8, pinDifference (MOTOR_STATES.getD i 0) (MOTOR_STATES.getD ((i + 1) % 8) 0) = 1) := by
  decide


/-! ## Protocol dispatch lemmas -/

theorem takePayload_append (col rest : List Nat) (n : Nat) (h : col.length = n) :
    takePayload n (col ++ rest) = some (col, rest) := by
  unfold takePayload
  subst h
  simp [List.take_left, List.drop_left]

theorem stepCommand_regWrite (st : SysState) (b hi lo : Nat) (rest : List Nat)
    (hb : b &&& 0xF0 = 0x50) :
    stepCommand st (b :: hi :: lo :: rest)
      = .done (regWrite st (b &&& 0x0F) (hi * 256 + lo)) [] rest := by
  simp only [stepCommand, hb]
  norm_num

theorem stepCommand_regRead (st : SysState) (b : Nat) (rest : List Nat)
    (hb : b &&& 0xF0 = 0x40) :
    stepCommand st (b :: rest)
      = .done st [regRead st (b &&& 0x0F) / 256, regRead st (b &&& 0x0F) % 256] rest := by
  simp only [stepCommand, hb]
  norm_num

theorem stepCommand_pushLine (st : SysState) (b : Nat) (col rest : List Nat)
    (hb : b &&& 0xF0 = 0x10) (hcol : col.length = NUM_VERTICAL_BYTES) :
    stepCommand st (b :: (col ++ rest))
      = match rbPush st.buf col with
        | none => .blocked
        | some buf' =>
            .done { st with buf := buf' } [DISPLAY_BUFFER_LENGTH - buf'.count] rest := by
  simp only [stepCommand, hb, takePayload_append col rest NUM_VERTICAL_BYTES hcol]
  norm_num

theorem stepCommand_pushLine_ok (st : SysState) (b : Nat) (col rest : List Nat)
    (buf' : RingBuffer) (hb : b &&& 0xF0 = 0x10) (hcol : col.length = NUM_VERTICAL_BYTES)
    (hpush : rbPush st.buf col = some buf') :
    stepCommand st (b :: (col ++ rest))
      = .done { st with buf := buf' } [DISPLAY_BUFFER_LENGTH - buf'.count] rest := by
  rw [stepCommand_pushLine st b col rest hb hcol, hpush]

theorem stepCommand_pushLine_full (st : SysState) (b : Nat) (col rest : List Nat)
    (hb : b &&& 0xF0 = 0x10) (hcol : col.length = NUM_VERTICAL_BYTES)
    (hpush : rbPush st.buf col = none) :
    stepCommand st (b :: (col ++ rest)) = .blocked := by
  rw [stepCommand_pushLine st b col rest hb hcol, hpush]

/-! ## Claim C9: PING -/

/-- C9: for every 4-bit immediate `n`, the `PING` command returns exactly one
byte equal to `(PROTOCOL_VERSION << 4) | n`, which is `16 + n`; in
particular `PING` with immediate `0x7` returns `0x17`. -/
theorem ping_response (st : SysState) (n : Nat) (rest : List Nat) (hn : n < 16) :
    stepCommand st ((0xF0 + n) :: rest) = .done st [(PROTOCOL_VERSION <<< 4) ||| n] rest ∧
    (PROTOCOL_VERSION <<< 4) ||| n = 16 + n := by
  have hop : (0xF0 + n) &&& 0xF0 = 0xF0 := by interval_cases n <;> decide
  have him : (0xF0 + n) &&& 0x0F = n := by interval_cases n <;> decide
  refine ⟨?_, by interval_cases n <;> decide⟩
  simp only [stepCommand, hop, him]
  norm_num

/-- C9 witness: `PING` with immediate `0x7` from the initial state returns
the single byte `0x17 = 23`. -/
theorem ping_response_witness :
    (7 : Nat) < 16 ∧
    (stepCommand initState ((0xF0 + 7) :: []) =
        .done initState [(PROTOCOL_VERSION <<< 4) ||| 7] [] ∧
      (PROTOCOL_VERSION <<< 4) ||| 7 = 16 + 7) :=
  ⟨by decide, ping_response initState 7 [] (by decide)⟩

/-! ## Claim C7: unknown opcodes are ignored -/

/-- C7: a command byte whose opcode nibble is none of the defined opcodes
(`NO_OP 0x0`, `PUSH_LINE 0x1`, `FLUSH_BUFFER 0x2`, `CLEAR_BUFFER 0x3`,
`REG_READ 0x4`, `REG_WRITE 0x5`, `PING 0xF`) changes no state, emits no
response bytes, and consumes only itself, so the next input byte is parsed
as a fresh command and the link never desynchronizes. -/
theorem unknown_opcode_ignored (st : SysState) (b : Nat) (rest : List Nat)
    (h0 : b &&& 0xF0 ≠ 0x00) (h1 : b &&& 0xF0 ≠ 0x10) (h2 : b &&& 0xF0 ≠ 0x20)
    (h3 : b &&& 0xF0 ≠ 0x30) (h4 : b &&& 0xF0 ≠ 0x40) (h5 : b &&& 0xF0 ≠ 0x50)
    (hF : b &&& 0xF0 ≠ 0xF0) :
    stepCommand st (b :: rest) = .done st [] rest := by
  simp only [stepCommand]
  rw [if_neg h0, if_neg h1, if_neg h2, if_neg h3, if_neg h4, if_neg h5, if_neg hF]

/-- C7 witness: the byte `0x6C` (reserved opcode nibble `0x6`) is ignored,
leaving the state untouched, answering nothing, and leaving the following
byte `0x17` at the head of the stream. -/
theorem unknown_opcode_ignored_witness :
    ((0x6C : Nat) &&& 0xF0 ≠ 0x00) ∧ ((0x6C : Nat) &&& 0xF0 ≠ 0x10) ∧
    ((0x6C : Nat) &&& 0xF0 ≠ 0x20) ∧ ((0x6C : Nat) &&& 0xF0 ≠ 0x30) ∧
    ((0x6C : Nat) &&& 0xF0 ≠ 0x40) ∧ ((0x6C : Nat) &&& 0xF0 ≠ 0x50) ∧
    ((0x6C : Nat) &&& 0xF0 ≠ 0xF0) ∧
    stepCommand initState [0x6C, 0x17] = .done initState [] [0x17] :=
  ⟨by decide, by decide, by decide, by decide, by decide, by decide, by decide,
   unknown_opcode_ignored initState 0x6C [0x17] (by decide) (by decide) (by decide)
     (by decide) (by decide) (by decide) (by decide)⟩

/-! ## Claim C8: writes to read-only registers are silent no-ops -/

/-- C8: a `REG_WRITE` addressed to one of the read-only registers (display
height 0, display width 1, RPM 2, buffer size 5) consumes its 2-byte
payload but changes no state and produces no response; in particular
`REG_DISPLAY_HEIGHT` still reads the fixed `VERTICAL_PIXELS`-derived
constant afterwards. -/
theorem readonly_reg_write_noop (st : SysState) (idx hi lo : Nat) (rest : List Nat)
    (hidx : idx = 0 ∨ idx = 1 ∨ idx = 2 ∨ idx = 5) :
    stepCommand st ((0x50 + idx) :: hi :: lo :: rest) = .done st [] rest ∧
    regWrite st idx (hi * 256 + lo) = st ∧
    regRead (regWrite st idx (hi * 256 + lo)) 0 = VERTICAL_PIXELS := by
  have hw : regWrite st idx (hi * 256 + lo) = st := by
    rcases hidx with rfl | rfl | rfl | rfl <;> rfl
  have hb : (0x50 + idx) &&& 0xF0 = 0x50 := by
    rcases hidx with rfl | rfl | rfl | rfl <;> decide
  have him : (0x50 + idx) &&& 0x0F = idx := by
    rcases hidx with rfl | rfl | rfl | rfl <;> decide
  refine ⟨?_, hw, by rw [hw]; rcases hidx with rfl | rfl | rfl | rfl <;> rfl⟩
  rw [stepCommand_regWrite st (0x50 + idx) hi lo rest hb, him, hw]

/-- C8 witness: writing `0xABCD` to register 0 (`REG_DISPLAY_HEIGHT`)
consumes the 2-byte payload, leaves the whole state unchanged, answers
nothing, and the register still reads `VERTICAL_PIXELS = 120`. -/
theorem readonly_reg_write_noop_witness :
    ((0 : Nat) = 0 ∨ (0 : Nat) = 1 ∨ (0 : Nat) = 2 ∨ (0 : Nat) = 5) ∧
    (stepCommand initState ((0x50 + 0) :: 0xAB :: 0xCD :: []) = .done initState [] [] ∧
      regWrite initState 0 (0xAB * 256 + 0xCD) = initState ∧
      regRead (regWrite initState 0 (0xAB * 256 + 0xCD)) 0 = VERTICAL_PIXELS) :=
  ⟨Or.inl rfl, readonly_reg_write_noop initState 0 0xAB 0xCD [] (Or.inl rfl)⟩

/-! ## Claim C1: PUSH_LINE flow control -/

/-- C1: a `PUSH_LINE` with a free slot available enqueues its column and
returns exactly one response byte equal to the number of free slots after
the enqueue (`capacity - occupancy_after_push`); a `PUSH_LINE` against a
full buffer suspends (no completion, nothing consumed beyond the wait) and
becomes serviceable as soon as scan-out pops one column; and a back-to-back
sequence of `DISPLAY_BUFFER_LENGTH` pushes into an empty buffer succeeds
with response bytes `7, 6, ..., 0`, filling the buffer. -/
theorem pushLine_flow_control (st : SysState) (col : Column) (rest : List Nat)
    (hcol : col.length = NUM_VERTICAL_BYTES) :
    (st.buf.count < DISPLAY_BUFFER_LENGTH →
      ∃ buf', rbPush st.buf col = some buf' ∧ buf'.count = st.buf.count + 1 ∧
        stepCommand st (0x10 :: (col ++ rest)) =
          .done { st with buf := buf' } [DISPLAY_BUFFER_LENGTH - (st.buf.count + 1)] rest) ∧
    (st.buf.count = DISPLAY_BUFFER_LENGTH →
      stepCommand st (0x10 :: (col ++ rest)) = .blocked ∧
      ∃ c' b', rbPop st.buf = some (c', b') ∧ ∃ b'', rbPush b' col = some b'') ∧
    (∀ cols : List Column, cols.length = DISPLAY_BUFFER_LENGTH →
      ∃ bufF rs, bufPushSeq rbEmpty cols = some (bufF, rs) ∧
        rs = [7, 6, 5, 4, 3, 2, 1, 0] ∧ bufF.count = DISPLAY_BUFFER_LENGTH) := by
  have hb : (0x10 : Nat) &&& 0xF0 = 0x10 := by decide
  refine ⟨?_, ?_, ?_⟩
  · intro h
    obtain ⟨b', hpush, hcount, -, -⟩ := rbPush_toList st.buf col h
    refine ⟨b', hpush, hcount, ?_⟩
    rw [stepCommand_pushLine_ok st 0x10 col rest b' hb hcol hpush, hcount]
  · intro h
    have hnone : rbPush st.buf col = none := by simp [rbPush, h]
    refine ⟨stepCommand_pushLine_full st 0x10 col rest hb hcol hnone, ?_⟩
    have hne : st.buf.count ≠ 0 := by rw [h]; decide
    obtain ⟨b', hpop, hcount, -⟩ := rbPop_toList st.buf hne
    refine ⟨_, b', hpop, ?_⟩
    have hlt : b'.count < DISPLAY_BUFFER_LENGTH := by rw [hcount, h]; decide
    obtain ⟨b'', hpush2, -, -, -⟩ := rbPush_toList b' col hlt
    exact ⟨b'', hpush2⟩
  · intro cols hlen
    obtain ⟨bF, rs, hseq, hcount, -, hrs⟩ := bufPushSeq_spec cols rbEmpty (by
      show rbEmpty.count + cols.length ≤ DISPLAY_BUFFER_LENGTH
      rw [hlen]; decide)
    refine ⟨bF, rs, hseq, ?_, by rw [hcount, hlen]; decide⟩
    rw [hrs, hlen]
    decide

/-- C1 witness: from the initial (empty-buffer) state, with an all-zero
15-byte column: the buffer has room, so the push enqueues and answers
`7` free slots; and every 8-column burst from empty fills the buffer with
responses `7..0`. -/
theorem pushLine_flow_control_witness :
    (List.replicate 15 0).length = NUM_VERTICAL_BYTES ∧
    ((initState.buf.count < DISPLAY_BUFFER_LENGTH →
      ∃ buf', rbPush initState.buf (List.replicate 15 0) = some buf' ∧
        buf'.count = initState.buf.count + 1 ∧
        stepCommand initState (0x10 :: (List.replicate 15 0 ++ [])) =
          .done { initState with buf := buf' }
            [DISPLAY_BUFFER_LENGTH - (initState.buf.count + 1)] []) ∧
    (initState.buf.count = DISPLAY_BUFFER_LENGTH →
      stepCommand initState (0x10 :: (List.replicate 15 0 ++ [])) = .blocked ∧
      ∃ c' b', rbPop initState.buf = some (c', b') ∧
        ∃ b'', rbPush b' (List.replicate 15 0) = some b'') ∧
    (∀ cols : List Column, cols.length = DISPLAY_BUFFER_LENGTH →
      ∃ bufF rs, bufPushSeq rbEmpty cols = some (bufF, rs) ∧
        rs = [7, 6, 5, 4, 3, 2, 1, 0] ∧ bufF.count = DISPLAY_BUFFER_LENGTH)) :=
  ⟨rfl, pushLine_flow_control initState (List.replicate 15 0) [] rfl⟩

/-! ## Claim C2: FIFO order -/

/-- C2: the display buffer is FIFO: pushing any sequence of at most
`DISPLAY_BUFFER_LENGTH` columns into the empty buffer and then popping
them back returns exactly the pushed columns in push order. -/
theorem display_buffer_fifo (cols : List Column)
    (h : cols.length ≤ DISPLAY_BUFFER_LENGTH) :
    ∃ bufF rs, bufPushSeq rbEmpty cols = some (bufF, rs) ∧
      (rbPopList cols.length bufF).1 = cols := by
  obtain ⟨bF, rs, hseq, hcount, hlist, -⟩ := bufPushSeq_spec cols rbEmpty (by
    show rbEmpty.count + cols.length ≤ DISPLAY_BUFFER_LENGTH
    simpa [rbEmpty] using h)
  refine ⟨bF, rs, hseq, ?_⟩
  rw [rbPopList_toList cols.length bF (by simp [rbEmpty] at hcount; omega), hlist]
  simp [rbToList, rbEmpty]

/-- C2 witness: pushing the three distinct columns `[1]`, `[2]`, `[3]` and
popping three times yields them back in exactly that order. -/
theorem display_buffer_fifo_witness :
    ([[1], [2], [3]] : List Column).length ≤ DISPLAY_BUFFER_LENGTH ∧
    (∃ bufF rs, bufPushSeq rbEmpty [[1], [2], [3]] = some (bufF, rs) ∧
      (rbPopList ([[1], [2], [3]] : List Column).length bufF).1 = [[1], [2], [3]]) :=
  ⟨by decide, display_buffer_fifo [[1], [2], [3]] (by decide)⟩

/-! ## Claim C3: stepper periodicity -/

/-- C3: from any starting phase, over `ROTATION_STEPS` consecutive stepper
ticks (either rotation direction) each of the 8 `MOTOR_STATES` phase
indices is visited exactly `ROTATION_STEPS / 8 = 512` times, consecutive
visited phases always advance by the direction's step (+1 or -1 mod 8, in
cyclic order), and the cumulative step count returns to 0 after exactly
`ROTATION_STEPS` ticks. -/
theorem stepper_rotation_period (p : Nat) (hp : p < 8) (cw : Bool) :
    (∀ r, r < 8 →
      (List.range ROTATION_STEPS).countP
          (fun k => ((stepperTick cw)^[k + 1] ⟨p, 0⟩).phase == r) = ROTATION_STEPS / 8) ∧
    ((stepperTick cw)^[ROTATION_STEPS] ⟨p, 0⟩).steps = 0 ∧
    (∀ k, ((stepperTick cw)^[k + 1] ⟨p, 0⟩).phase
        = (((stepperTick cw)^[k] ⟨p, 0⟩).phase + phaseDelta cw) % 8) := by
  refine ⟨?_, ?_, ?_⟩
  · intro r hr
    have hd : phaseDelta cw = 1 ∨ phaseDelta cw = 7 := by
      cases cw <;> simp [phaseDelta]
    have hcongr : ∀ k ∈ List.range ROTATION_STEPS,
        ((((stepperTick cw)^[k + 1] ⟨p, 0⟩).phase == r) = true
          ↔ ((((p + phaseDelta cw) % 8 + k * phaseDelta cw) % 8 == r) = true)) := by
      intro k _
      have heq : (p + (k + 1) * phaseDelta cw) % 8
          = ((p + phaseDelta cw) % 8 + k * phaseDelta cw) % 8 := by
        rw [Nat.mod_add_mod]
        congr 1
        ring
      rw [stepperTick_iterate_phase cw p 0 hp (k + 1), heq]
    rw [List.countP_congr hcongr,
        show ROTATION_STEPS = 8 * 512 from rfl,
        countP_phase_blocks (phaseDelta cw) hd 512 ((p + phaseDelta cw) % 8) r
          (Nat.mod_lt _ (by norm_num)) hr]
  · rw [stepperTick_iterate_steps cw p ROTATION_STEPS]
    decide
  · intro k
    rw [Function.iterate_succ_apply', stepperTick_phase]

/-- C3 witness: starting at phase 0 with counter-clockwise rotation, the
4096-tick rotation visits every phase 512 times in cyclic order and the
step count wraps back to 0. -/
theorem stepper_rotation_period_witness :
    (0 : Nat) < 8 ∧
    ((∀ r, r < 8 →
      (List.range ROTATION_STEPS).countP
          (fun k => ((stepperTick false)^[k + 1] ⟨0, 0⟩).phase == r) = ROTATION_STEPS / 8) ∧
    ((stepperTick false)^[ROTATION_STEPS] ⟨0, 0⟩).steps = 0 ∧
    (∀ k, ((stepperTick false)^[k + 1] ⟨0, 0⟩).phase
        = (((stepperTick false)^[k] ⟨0, 0⟩).phase + phaseDelta false) % 8)) :=
  ⟨by decide, stepper_rotation_period 0 (by decide) false⟩

/-! ## Claim C6: pixel-duty clamping -/

/-- C6 (counterexample): writing the 8.8 fixed-point value `0x200` (2.0) to
the pixel-duty register stores the clamped maximum `1.0`, whose 8.8
representation is `0x100`, not `0xFF` as the claim (following the spec's
parenthetical) states: reading the register back does not return `0xFF`. -/
theorem pixel_duty_clamp_not_0xFF :
    regRead (regWrite initState 4 0x200) 4 = 0x100 ∧ (0x100 : Nat) ≠ 0xFF :=
  ⟨by decide, by decide⟩

/-- C6 (amended): a `REG_WRITE` to the pixel-duty register (index 4) whose
16-bit 8.8 fixed-point payload exceeds 1.0 stores the maximum representable
value 1.0, which is `0x100` in 8.8 fixed point; reading the register back
returns that clamped maximum (response bytes `0x01 0x00`). -/
theorem pixel_duty_write_clamped (st : SysState) (hi lo : Nat) (rest rest2 : List Nat)
    (hhi : hi < 256) (hlo : lo < 256) (hv : 256 < hi * 256 + lo) :
    ∃ st', stepCommand st (0x54 :: hi :: lo :: rest) = .done st' [] rest ∧
      st'.pixelDuty = 0x100 ∧ regRead st' 4 = 0x100 ∧
      stepCommand st' (0x44 :: rest2) = .done st' [0x01, 0x00] rest2 := by
  have hduty : (regWrite st 4 (hi * 256 + lo)).pixelDuty = 256 := by
    show min ((hi * 256 + lo) % 65536) 256 = 256
    rw [Nat.mod_eq_of_lt (by omega)]
    exact Nat.min_eq_right (by omega)
  refine ⟨regWrite st 4 (hi * 256 + lo), ?_, hduty, hduty, ?_⟩
  · rw [stepCommand_regWrite st 0x54 hi lo rest (by decide),
        show (0x54 : Nat) &&& 0x0F = 4 from by decide]
  · rw [stepCommand_regRead _ 0x44 rest2 (by decide),
        show (0x44 : Nat) &&& 0x0F = 4 from by decide,
        show regRead (regWrite st 4 (hi * 256 + lo)) 4
          = (regWrite st 4 (hi * 256 + lo)).pixelDuty from rfl,
        hduty]

/-- C6 witness: writing `0x0200` (payload bytes `0x02 0x00`, the 8.8 value
2.0) clamps to `0x100` and reads back as bytes `0x01 0x00`. -/
theorem pixel_duty_write_clamped_witness :
    (2 : Nat) < 256 ∧ (0 : Nat) < 256 ∧ (256 : Nat) < 2 * 256 + 0 ∧
    (∃ st', stepCommand initState (0x54 :: 2 :: 0 :: []) = .done st' [] [] ∧
      st'.pixelDuty = 0x100 ∧ regRead st' 4 = 0x100 ∧
      stepCommand st' (0x44 :: []) = .done st' [0x01, 0x00] []) :=
  ⟨by decide, by decide, by decide,
   pixel_duty_write_clamped initState 2 0 [] [] (by decide) (by decide) (by decide)⟩

end LineOfLife
